import Mathlib

/-!
Verification of the segment-timing core of `accurate_timing_of_strava_segments.py`.

The Python program computes the elapsed time of an activity on a Strava
segment.  Its core is pure geometry over latitude/longitude pairs treated as
a Euclidean plane, implemented on top of `sympy.geometry` (exact real
arithmetic).  We embed the core shallowly: coordinates and timestamps are
real numbers, the sympy geometric primitives (`Point.distance`,
`Line.projection`, `Segment.distance`) are spelled out over `ℝ × ℝ`, and the
two Python functions that can raise at runtime are modelled with `Option`
(`none` = the function raises an exception).
-/

namespace Strava

open Classical

/-- A TCX track point: longitude, latitude and a timestamp
(seconds; Python `datetime` arithmetic is exact). -/
structure TrackPoint where
  longitude : ℝ
  latitude : ℝ
  time : ℝ

instance : Inhabited TrackPoint := ⟨⟨0, 0, 0⟩⟩

/-- A geometric point `(x, y)` = `(longitude, latitude)`, as in `sympy.geometry.Point`. -/
abbrev Point : Type := ℝ × ℝ

/-- `track_point_to_point`: coordinates of a track point as a plane point
(longitude first, matching `Point(trackpoint.longitude, trackpoint.latitude)`). -/
def track_point_to_point (trackpoint : TrackPoint) : Point :=
  (trackpoint.longitude, trackpoint.latitude)

/-- A segment with start point `p1` and end point `p2` (sympy `Segment`). -/
structure Segment where
  p1 : Point
  p2 : Point

/-- Euclidean distance between two plane points (sympy `Point.distance`). -/
noncomputable def pointDistance (p q : Point) : ℝ :=
  Real.sqrt ((q.1 - p.1) ^ 2 + (q.2 - p.2) ^ 2)

/-- Parameter `t` of the orthogonal projection of `c` onto the line through
`a` and `b`: the projection is `a + t • (b - a)`. -/
noncomputable def projParam (a b c : Point) : ℝ :=
  ((c.1 - a.1) * (b.1 - a.1) + (c.2 - a.2) * (b.2 - a.2)) /
    ((b.1 - a.1) ^ 2 + (b.2 - a.2) ^ 2)

/-- Orthogonal projection of `c` onto the infinite line through `a` and `b`
(sympy `Line(a, b).projection(c)`). -/
noncomputable def lineProjection (a b c : Point) : Point :=
  (a.1 + projParam a b c * (b.1 - a.1), a.2 + projParam a b c * (b.2 - a.2))

/-- Distance from the point `c` to the finite segment from `a` to `b`
(sympy `Segment.distance`): the perpendicular distance when the projection
falls within the segment, otherwise the distance to the nearest endpoint. -/
noncomputable def segmentDistance (a b c : Point) : ℝ :=
  if 0 ≤ projParam a b c ∧ projParam a b c ≤ 1 then
    pointDistance (lineProjection a b c) c
  else
    min (pointDistance a c) (pointDistance b c)

/-- `check_passed_point(step, point)`:
`step.distance(point) < min(step.p1.distance(point), step.p2.distance(point))`.
A step is a micro-segment between two adjacent track points. -/
noncomputable def check_passed_point (step : Point × Point) (point : Point) : Prop :=
  segmentDistance step.1 step.2 point <
    min (pointDistance step.1 point) (pointDistance step.2 point)

/-- The quantity `start_step_fraction` computed by `project_and_interpolate`:
`float(start_projection.distance(point) / step.length)` — the distance from
the projection of `point` onto the step's line back to `point` itself,
divided by the step length. -/
noncomputable def step_fraction (step : Point × Point) (point : Point) : ℝ :=
  pointDistance (lineProjection step.1 step.2 point) point / pointDistance step.1 step.2

/-- `project_and_interpolate(step, step_t1, step_t2, point)`: project `point`
onto the step's line and interpolate the timestamp as
`step_t1 + start_step_fraction * (step_t2 - step_t1)`. -/
noncomputable def project_and_interpolate (step : Point × Point) (step_t1 step_t2 : ℝ)
    (point : Point) : TrackPoint :=
  let start_projection := lineProjection step.1 step.2 point
  let dt_s := step_fraction step point * (step_t2 - step_t1)
  ⟨start_projection.1, start_projection.2, step_t1 + dt_s⟩

/-- `is_trackpoint_close_to_point(trackpoint, point)`:
`point.y - 0.0005 <= trackpoint.latitude <= point.y + 0.0005 and
 point.x - 0.0005 <= trackpoint.longitude <= point.x + 0.0005`. -/
def is_trackpoint_close_to_point (trackpoint : TrackPoint) (point : Point) : Prop :=
  (point.2 - 0.0005 ≤ trackpoint.latitude ∧ trackpoint.latitude ≤ point.2 + 0.0005) ∧
  (point.1 - 0.0005 ≤ trackpoint.longitude ∧ trackpoint.longitude ≤ point.1 + 0.0005)

/-- The index pairs `(point_idx, point_idx + 1)` scanned by the loop
`for point_idx in range(len(activity[:-2]))` in `calc_segment_times`,
for an activity of length `n` (`len(activity[:-2]) = n - 2`, truncated at 0). -/
def microstepIndexPairs (n : Nat) : List (Nat × Nat) :=
  (List.range (n - 2)).map (fun i => (i, i + 1))

/-! ## Basic facts about the geometric primitives -/

theorem pointDistance_nonneg (p q : Point) : 0 ≤ pointDistance p q :=
  Real.sqrt_nonneg _

theorem pointDistance_self (p : Point) : pointDistance p p = 0 := by
  simp [pointDistance]

theorem segmentDistance_nonneg (a b c : Point) : 0 ≤ segmentDistance a b c := by
  unfold segmentDistance
  split
  · exact pointDistance_nonneg _ _
  · exact le_min (pointDistance_nonneg _ _) (pointDistance_nonneg _ _)

/-- A step never "passes" its own first endpoint: the min of the endpoint
distances is then `0` while the segment distance is nonnegative. -/
theorem not_check_passed_point_fst (a b : Point) : ¬ check_passed_point (a, b) a := by
  unfold check_passed_point
  simp only [not_lt]
  calc min (pointDistance a a) (pointDistance b a)
      ≤ pointDistance a a := min_le_left _ _
    _ = 0 := pointDistance_self a
    _ ≤ segmentDistance a b a := segmentDistance_nonneg a b a

/-- A step never "passes" its own second endpoint. -/
theorem not_check_passed_point_snd (a b : Point) : ¬ check_passed_point (a, b) b := by
  unfold check_passed_point
  simp only [not_lt]
  calc min (pointDistance a b) (pointDistance b b)
      ≤ pointDistance b b := min_le_right _ _
    _ = 0 := pointDistance_self b
    _ ≤ segmentDistance a b b := segmentDistance_nonneg a b b

/-- With `t = projParam a b c` and `L2` the squared step length, the squared
distance from `c` to the first endpoint decomposes as squared perpendicular
distance plus `t ^ 2 * L2` (Pythagoras along the step). -/
theorem sq_dist_fst_decomp (a b c : Point) (hL2 : (b.1 - a.1) ^ 2 + (b.2 - a.2) ^ 2 ≠ 0) :
    (c.1 - (lineProjection a b c).1) ^ 2 + (c.2 - (lineProjection a b c).2) ^ 2 +
      projParam a b c ^ 2 * ((b.1 - a.1) ^ 2 + (b.2 - a.2) ^ 2) =
    (c.1 - a.1) ^ 2 + (c.2 - a.2) ^ 2 := by
  have ht : projParam a b c * ((b.1 - a.1) ^ 2 + (b.2 - a.2) ^ 2) =
      (c.1 - a.1) * (b.1 - a.1) + (c.2 - a.2) * (b.2 - a.2) := by
    unfold projParam
    field_simp
  unfold lineProjection
  linear_combination (2 * projParam a b c) * ht

/-- Companion decomposition for the second endpoint, with factor `(1 - t) ^ 2`. -/
theorem sq_dist_snd_decomp (a b c : Point) (hL2 : (b.1 - a.1) ^ 2 + (b.2 - a.2) ^ 2 ≠ 0) :
    (c.1 - (lineProjection a b c).1) ^ 2 + (c.2 - (lineProjection a b c).2) ^ 2 +
      (1 - projParam a b c) ^ 2 * ((b.1 - a.1) ^ 2 + (b.2 - a.2) ^ 2) =
    (c.1 - b.1) ^ 2 + (c.2 - b.2) ^ 2 := by
  have ht : projParam a b c * ((b.1 - a.1) ^ 2 + (b.2 - a.2) ^ 2) =
      (c.1 - a.1) * (b.1 - a.1) + (c.2 - a.2) * (b.2 - a.2) := by
    unfold projParam
    field_simp
  unfold lineProjection
  linear_combination (2 * projParam a b c - 2) * ht

/-- For a non-degenerate step, the squared step length is positive. -/
theorem sq_len_pos (a b : Point) (hab : a ≠ b) :
    0 < (b.1 - a.1) ^ 2 + (b.2 - a.2) ^ 2 := by
  have h : a.1 ≠ b.1 ∨ a.2 ≠ b.2 := by
    by_contra h
    push_neg at h
    exact hab (Prod.ext h.1 h.2)
  rcases h with h | h
  · have h1 : b.1 - a.1 ≠ 0 := sub_ne_zero.mpr (Ne.symm h)
    have := pow_two_pos_of_ne_zero h1
    nlinarith [sq_nonneg (b.2 - a.2)]
  · have h1 : b.2 - a.2 ≠ 0 := sub_ne_zero.mpr (Ne.symm h)
    have := pow_two_pos_of_ne_zero h1
    nlinarith [sq_nonneg (b.1 - a.1)]

/-- Modelled from the spec: the MicroStep is deemed to have "passed" the
target iff the perpendicular distance from the target to the INFINITE LINE
through the MicroStep is strictly less than the minimum of the target's
distances to the MicroStep's two endpoints (the spec's wording of the
passed-point test; the code compares the distance to the finite segment
instead). -/
noncomputable def check_passed_point_line_spec (step : Point × Point) (point : Point) : Prop :=
  pointDistance (lineProjection step.1 step.2 point) point <
    min (pointDistance step.1 point) (pointDistance step.2 point)

/-- C2 (amended): for a non-degenerate MicroStep, `check_passed_point` holds
iff the orthogonal projection of the target onto the step's line falls
strictly between the two endpoints (`0 < t < 1` for the projection parameter
`t`); equivalently the code compares the target's distance to the finite
segment — not to the infinite line — against the endpoint distances. -/
theorem check_passed_point_iff_proj_interior (a b c : Point) (hab : a ≠ b) :
    check_passed_point (a, b) c ↔ 0 < projParam a b c ∧ projParam a b c < 1 := by
  have hL2pos := sq_len_pos a b hab
  have hL2 : (b.1 - a.1) ^ 2 + (b.2 - a.2) ^ 2 ≠ 0 := ne_of_gt hL2pos
  have hperp0 : (0:ℝ) ≤
      (c.1 - (lineProjection a b c).1) ^ 2 + (c.2 - (lineProjection a b c).2) ^ 2 := by
    positivity
  have hd1 : pointDistance a c =
      Real.sqrt ((c.1 - (lineProjection a b c).1) ^ 2 + (c.2 - (lineProjection a b c).2) ^ 2 +
        projParam a b c ^ 2 * ((b.1 - a.1) ^ 2 + (b.2 - a.2) ^ 2)) := by
    rw [sq_dist_fst_decomp a b c hL2]; rfl
  have hd2 : pointDistance b c =
      Real.sqrt ((c.1 - (lineProjection a b c).1) ^ 2 + (c.2 - (lineProjection a b c).2) ^ 2 +
        (1 - projParam a b c) ^ 2 * ((b.1 - a.1) ^ 2 + (b.2 - a.2) ^ 2)) := by
    rw [sq_dist_snd_decomp a b c hL2]; rfl
  have hperp_lt_d1 : pointDistance (lineProjection a b c) c < pointDistance a c ↔
      projParam a b c ≠ 0 := by
    rw [hd1]
    unfold pointDistance
    rw [Real.sqrt_lt_sqrt_iff hperp0, lt_add_iff_pos_right]
    constructor
    · intro h h0
      rw [h0] at h
      simp at h
    · intro h
      exact mul_pos (pow_two_pos_of_ne_zero h) hL2pos
  have hperp_lt_d2 : pointDistance (lineProjection a b c) c < pointDistance b c ↔
      projParam a b c ≠ 1 := by
    rw [hd2]
    unfold pointDistance
    rw [Real.sqrt_lt_sqrt_iff hperp0, lt_add_iff_pos_right]
    constructor
    · intro h h0
      rw [h0] at h
      simp at h
    · intro h
      have h1 : 1 - projParam a b c ≠ 0 := sub_ne_zero.mpr (Ne.symm h)
      exact mul_pos (pow_two_pos_of_ne_zero h1) hL2pos
  unfold check_passed_point segmentDistance
  by_cases ht : 0 ≤ projParam a b c ∧ projParam a b c ≤ 1
  · rw [if_pos ht, lt_min_iff, hperp_lt_d1, hperp_lt_d2]
    constructor
    · rintro ⟨h0, h1⟩
      exact ⟨lt_of_le_of_ne ht.1 (Ne.symm h0), lt_of_le_of_ne ht.2 h1⟩
    · rintro ⟨h0, h1⟩
      exact ⟨ne_of_gt h0, ne_of_lt h1⟩
  · rw [if_neg ht]
    simp only [lt_irrefl, false_iff, not_and, not_lt]
    intro h0
    push_neg at ht
    rcases lt_or_le (projParam a b c) 0 with h | h
    · exact absurd h0 (not_lt.mpr h.le)
    · exact (ht h).le

/-- C2 (counterexample): for the MicroStep from `(0,0)` to `(1,0)` and target
`(2,1)`, the spec's infinite-line test deems the step passed (perpendicular
line distance `1 < √2`), but the code's `check_passed_point` does not: the
projection parameter is `2`, outside the step, so sympy's segment distance
equals the minimal endpoint distance and the strict comparison fails. -/
theorem check_passed_point_line_spec_cex :
    check_passed_point_line_spec ((0, 0), (1, 0)) (2, 1) ∧
      ¬ check_passed_point ((0, 0), (1, 0)) (2, 1) := by
  have hproj : projParam (0, 0) (1, 0) (2, 1) = 2 := by
    unfold projParam; norm_num
  have hline : lineProjection (0, 0) (1, 0) (2, 1) = ((2 : ℝ), (0 : ℝ)) := by
    unfold lineProjection
    rw [hproj]
    norm_num
  have hperp : pointDistance (lineProjection (0, 0) (1, 0) (2, 1)) (2, 1) = 1 := by
    rw [hline]
    unfold pointDistance
    norm_num
  have hd1 : pointDistance ((0 : ℝ), (0 : ℝ)) (2, 1) = Real.sqrt 5 := by
    unfold pointDistance; norm_num
  have hd2 : pointDistance ((1 : ℝ), (0 : ℝ)) (2, 1) = Real.sqrt 2 := by
    unfold pointDistance; norm_num
  have hmin : min (pointDistance ((0 : ℝ), (0 : ℝ)) (2, 1))
      (pointDistance ((1 : ℝ), (0 : ℝ)) (2, 1)) = Real.sqrt 2 := by
    rw [hd1, hd2]
    exact min_eq_right (Real.sqrt_le_sqrt (by norm_num))
  constructor
  · unfold check_passed_point_line_spec
    simp only []
    rw [hperp, hmin]
    have : Real.sqrt 1 < Real.sqrt 2 := Real.sqrt_lt_sqrt (by norm_num) (by norm_num)
    rwa [Real.sqrt_one] at this
  · unfold check_passed_point segmentDistance
    simp only []
    rw [if_neg (by rw [hproj]; norm_num)]
    exact lt_irrefl _

/-- Witness for `check_passed_point_iff_proj_interior` at the concrete step
`(0,0) → (1,0)` and target `(1/2, 1)`. -/
theorem check_passed_point_iff_proj_interior_witness :
    ((0, 0) : Point) ≠ ((1, 0) : Point) ∧
      (check_passed_point ((0, 0), (1, 0)) (1 / 2, 1) ↔
        0 < projParam (0, 0) (1, 0) (1 / 2, 1) ∧ projParam (0, 0) (1, 0) (1 / 2, 1) < 1) :=
  ⟨by simp [Prod.ext_iff],
   check_passed_point_iff_proj_interior (0, 0) (1, 0) (1 / 2, 1) (by simp [Prod.ext_iff])⟩

/-! ## The interpolation fraction at the step `(0,0) → (1,0)`, target `(1/2, 10)` -/

theorem fracCex_proj : projParam (0, 0) (1, 0) (1 / 2, 10) = 1 / 2 := by
  unfold projParam; norm_num

theorem fracCex_line : lineProjection (0, 0) (1, 0) (1 / 2, 10) = ((1 / 2 : ℝ), (0 : ℝ)) := by
  unfold lineProjection
  rw [fracCex_proj]
  norm_num

theorem fracCex_perp :
    pointDistance (lineProjection (0, 0) (1, 0) (1 / 2, 10)) (1 / 2, 10) = 10 := by
  rw [fracCex_line]
  unfold pointDistance
  norm_num
  rw [show (100 : ℝ) = 10 ^ 2 by norm_num]
  exact Real.sqrt_sq (by norm_num)

theorem fracCex_passed : check_passed_point ((0, 0), (1, 0)) (1 / 2, 10) := by
  unfold check_passed_point segmentDistance
  simp only []
  rw [if_pos (by rw [fracCex_proj]; norm_num), fracCex_perp]
  have hd1 : pointDistance ((0 : ℝ), (0 : ℝ)) (1 / 2, 10) = Real.sqrt 100.25 := by
    unfold pointDistance; norm_num
  have hd2 : pointDistance ((1 : ℝ), (0 : ℝ)) (1 / 2, 10) = Real.sqrt 100.25 := by
    unfold pointDistance; norm_num
  rw [hd1, hd2, min_self]
  have : Real.sqrt 100 < Real.sqrt 100.25 := Real.sqrt_lt_sqrt (by norm_num) (by norm_num)
  rwa [show (100 : ℝ) = 10 ^ 2 by norm_num, Real.sqrt_sq (by norm_num : (0:ℝ) ≤ 10)] at this

theorem fracCex_fraction : step_fraction ((0, 0), (1, 0)) (1 / 2, 10) = 10 := by
  unfold step_fraction
  simp only []
  rw [fracCex_perp]
  have hlen : pointDistance ((0 : ℝ), (0 : ℝ)) (1, 0) = 1 := by
    unfold pointDistance
    norm_num
  rw [hlen, div_one]

/-- C5 (code evaluation at the failing input): the MicroStep from `(0,0)` to
`(1,0)` passes the target `(1/2, 10)` under `check_passed_point`, yet the
fraction computed by `project_and_interpolate` — the projection-to-TARGET
distance divided by the step length, not the projection-to-endpoint distance
the spec describes — evaluates to `10`, far outside `[0, 1]`. -/
theorem step_fraction_out_of_range_cex :
    check_passed_point ((0, 0), (1, 0)) (1 / 2, 10) ∧
      step_fraction ((0, 0), (1, 0)) (1 / 2, 10) = 10 :=
  ⟨fracCex_passed, fracCex_fraction⟩

/-- C6 (code evaluation at the failing input): with `ap1.time = 0 ≤ 1 =
ap2.time`, the step `(0,0) → (1,0)` passes the target `(1/2, 10)` and the
synthesized CrossingEvent carries interpolated timestamp `0 + 10 * (1 - 0) =
10`, which does not lie between the two endpoint timestamps. -/
theorem interpolated_time_out_of_range_cex :
    check_passed_point ((0, 0), (1, 0)) (1 / 2, 10) ∧
      (project_and_interpolate ((0, 0), (1, 0)) 0 1 (1 / 2, 10)).time = 10 ∧
      ¬ (project_and_interpolate ((0, 0), (1, 0)) 0 1 (1 / 2, 10)).time ≤ 1 := by
  have htime : (project_and_interpolate ((0, 0), (1, 0)) 0 1 (1 / 2, 10)).time = 10 := by
    unfold project_and_interpolate
    simp only []
    rw [fracCex_fraction]
    norm_num
  exact ⟨fracCex_passed, htime, by rw [htime]; norm_num⟩

/-! ## Window Extractor -/

/-- `with_surrounding_trackpoints(trackpoints, center_idx)`: take the five
indices `center_idx - 2 … center_idx + 2`, keep those in `[0, len)`,
de-duplicate (Python `set`) and sort (Python `sorted`), and return the
track points at those indices. -/
def with_surrounding_trackpoints (trackpoints : List TrackPoint) (center_idx : Int) :
    List TrackPoint :=
  let all_idxs : List Int :=
    [center_idx - 2, center_idx - 1, center_idx, center_idx + 1, center_idx + 2]
  let valid_idxs := List.insertionSort (· ≤ ·)
    ((all_idxs.filter
      (fun idx => decide (0 ≤ idx ∧ idx < (trackpoints.length : Int)))).dedup)
  valid_idxs.map (fun idx => trackpoints.getD idx.toNat default)

/-- C9: the Window Extractor returns exactly the track points whose indices
lie within radius 2 of the center index (inclusive), clipped to the valid
index range, without duplicated indices and in original track order — i.e.
it equals the in-order selection of all valid indices in
`[center_idx - 2, center_idx + 2]`. -/
theorem window_extractor_exact (trackpoints : List TrackPoint) (center_idx : Int) :
    with_surrounding_trackpoints trackpoints center_idx =
      ((List.range trackpoints.length).filter
        (fun (i : Nat) => decide (center_idx - 2 ≤ (i : Int) ∧ (i : Int) ≤ center_idx + 2))).map
        (fun (i : Nat) => trackpoints.getD i default) := by
  unfold with_surrounding_trackpoints
  simp only []
  have hnodup5 : ([center_idx - 2, center_idx - 1, center_idx,
      center_idx + 1, center_idx + 2] : List Int).Nodup := by
    simp only [List.nodup_cons, List.mem_cons, List.mem_singleton, List.not_mem_nil,
      List.nodup_nil, and_true, not_or, not_false_eq_true]
    omega
  have hsorted5 : List.Sorted (· ≤ ·) ([center_idx - 2, center_idx - 1, center_idx,
      center_idx + 1, center_idx + 2] : List Int) := by
    rw [List.Sorted, ← List.chain'_iff_pairwise]
    simp only [List.chain'_cons, List.chain'_singleton, and_true]
    omega
  have hnodupf := List.Nodup.filter
    (fun idx => decide (0 ≤ idx ∧ idx < (trackpoints.length : Int))) hnodup5
  have hsortedf : List.Sorted (· ≤ ·)
      (([center_idx - 2, center_idx - 1, center_idx, center_idx + 1,
        center_idx + 2] : List Int).filter
        (fun idx => decide (0 ≤ idx ∧ idx < (trackpoints.length : Int)))) :=
    List.Pairwise.sublist (List.filter_sublist _) hsorted5
  rw [List.dedup_eq_self.mpr hnodupf, List.Sorted.insertionSort_eq hsortedf]
  have hnodupr : (((List.range trackpoints.length).filter
      (fun (i : Nat) => decide (center_idx - 2 ≤ (i : Int) ∧ (i : Int) ≤ center_idx + 2))).map
      (fun i : Nat => (i : Int))).Nodup :=
    List.Nodup.map Nat.cast_injective
      (List.Nodup.filter _ (List.nodup_range _))
  have hsortedr : List.Sorted (· ≤ ·) (((List.range trackpoints.length).filter
      (fun (i : Nat) => decide (center_idx - 2 ≤ (i : Int) ∧ (i : Int) ≤ center_idx + 2))).map
      (fun i : Nat => (i : Int))) := by
    refine List.Pairwise.map _ (fun a b h => ?_)
      (List.Pairwise.sublist (List.filter_sublist _) (List.sorted_lt_range _))
    exact_mod_cast Nat.le_of_lt h
  have hidx : ([center_idx - 2, center_idx - 1, center_idx, center_idx + 1,
        center_idx + 2] : List Int).filter
        (fun idx => decide (0 ≤ idx ∧ idx < (trackpoints.length : Int))) =
      ((List.range trackpoints.length).filter
        (fun (i : Nat) => decide (center_idx - 2 ≤ (i : Int) ∧ (i : Int) ≤ center_idx + 2))).map
        (fun i : Nat => (i : Int)) := by
    refine List.eq_of_perm_of_sorted
      ((List.perm_ext_iff_of_nodup hnodupf hnodupr).mpr fun a => ?_) hsortedf hsortedr
    simp only [List.mem_filter, List.mem_cons, List.mem_singleton, List.not_mem_nil,
      or_false, List.mem_map, List.mem_range, decide_eq_true_eq]
    constructor
    · rintro ⟨hmem, h0, hn⟩
      exact ⟨a.toNat, ⟨by omega, by omega, by omega⟩, by omega⟩
    · rintro ⟨i, ⟨hin, h1, h2⟩, rfl⟩
      exact ⟨by omega, by omega, by omega⟩
  rw [hidx, List.map_map]
  have hfun : ((fun idx : Int => trackpoints.getD idx.toNat default) ∘
      (fun i : Nat => (i : Int))) = fun i : Nat => trackpoints.getD i default := by
    funext i
    simp
  rw [hfun]

/-! ## Candidate Locator -/

/-- A nonempty Python tuple is always truthy, so `not t` on a pair is always
`False`.  The source's guards `if not start_idx_dist: raise ...` and
`if not end_idx_dist or ...` test exactly this, which is why the intended
`RuntimeError`s are unreachable. -/
def tupleFalsy {α β : Type} (_t : α × β) : Bool := false

/-- One iteration of the sweep in
`find_indexes_of_trackpoints_closest_to_segment_start_or_and`: update the
best start candidate, then (only if a start candidate exists) the best end
candidate.  `itp` is the `enumerate(trackpoints)` element
`(point_idx, trackpoint)`; the state is `(start_idx_dist, end_idx_dist)`. -/
noncomputable def locStep (segment : Segment) (trackpoints : List TrackPoint)
    (st : (Int × ℝ) × (Int × ℝ)) (itp : Nat × TrackPoint) : (Int × ℝ) × (Int × ℝ) :=
  let point_idx := itp.1
  let trackpoint := itp.2
  let st1 :=
    if is_trackpoint_close_to_point (trackpoints.getD point_idx default) segment.p1 then
      let start_dist := pointDistance (track_point_to_point trackpoint) segment.p1
      if st.1.1 = -1 ∨ start_dist < st.1.2 then (((point_idx : Int), start_dist), st.2) else st
    else st
  if st1.1.1 ≠ -1 ∧
      is_trackpoint_close_to_point (trackpoints.getD point_idx default) segment.p2 then
    let end_dist := pointDistance (track_point_to_point trackpoint) segment.p2
    if tupleFalsy st1.2 = true ∨ end_dist < st1.2.2 then
      (st1.1, ((point_idx : Int), end_dist))
    else st1
  else st1

/-- `find_indexes_of_trackpoints_closest_to_segment_start_or_and(segment,
trackpoints)`: single sweep over `enumerate(trackpoints)`; afterwards the
two `if not ...: raise RuntimeError(...)` guards (modelled by `none`) test
the truthiness of a pair and never fire. -/
noncomputable def find_indexes_of_trackpoints_closest_to_segment_start_or_and
    (segment : Segment) (trackpoints : List TrackPoint) : Option (Int × Int) :=
  let invalid_idx : Int := -1
  let invalid_distance : ℝ := 99999999.9
  let final := trackpoints.enum.foldl (locStep segment trackpoints)
    ((invalid_idx, invalid_distance), (invalid_idx, invalid_distance))
  if tupleFalsy final.1 = true then none
  else if tupleFalsy final.2 = true then none
  else some (final.1.1, final.2.1)

/-- C3 (code evaluation at the failing input): a one-point track at `(0, 0)`
never comes within the proximity tolerance of the Marienfeld segment's start
coordinate, yet the locator returns `some (-1, -1)` — the invalid sentinel
indices — instead of signalling the `NoMatchFound`-style error for the start
point: the `if not start_idx_dist` guard tests a nonempty tuple and can
never fire. -/
theorem locator_never_raises_cex :
    find_indexes_of_trackpoints_closest_to_segment_start_or_and
      ⟨(7.436902, 50.884516), (7.441928, 50.883243)⟩ [⟨0, 0, 0⟩] = some (-1, -1) := by
  have hnc1 : ¬ is_trackpoint_close_to_point (⟨0, 0, 0⟩ : TrackPoint)
      ((7.436902, 50.884516) : Point) := by
    unfold is_trackpoint_close_to_point
    norm_num
  unfold find_indexes_of_trackpoints_closest_to_segment_start_or_and
  simp only [List.enum, List.enumFrom, List.foldl]
  simp only [locStep, List.getD_cons_zero]
  rw [if_neg hnc1]
  simp [tupleFalsy]

/-! ## Invariant of the locator sweep (for claim C4) -/

theorem mem_enumFrom_bounds {α : Type} :
    ∀ (l : List α) (n : Nat) (x : Nat × α), x ∈ List.enumFrom n l →
      n ≤ x.1 ∧ x.1 < n + l.length := by
  intro l
  induction l with
  | nil => intro n x h; simp [List.enumFrom] at h
  | cons a as ih =>
    intro n x h
    rw [List.enumFrom] at h
    rcases List.mem_cons.mp h with rfl | h
    · simp
    · have := ih (n + 1) x h
      constructor
      · omega
      · simp only [List.length_cons]
        omega

theorem enumFrom_pairwise_le {α : Type} :
    ∀ (l : List α) (n : Nat),
      List.Pairwise (fun x y : Nat × α => x.1 ≤ y.1) (List.enumFrom n l) := by
  intro l
  induction l with
  | nil => intro n; simp [List.enumFrom]
  | cons a as ih =>
    intro n
    rw [List.enumFrom]
    refine List.Pairwise.cons (fun y hy => ?_) (ih (n + 1))
    have := (mem_enumFrom_bounds as (n + 1) y hy).1
    omega

/-- Invariant carried through the locator's sweep.
With `ls` the not-yet-processed `enumerate` suffix: if a start candidate
exists it is a real in-range index of a point close to the segment start,
and it lies before every unprocessed index; if an end candidate exists, a
start candidate exists too and some index at or before the end candidate is
close to the segment start. -/
def LocInv (trackpoints : List TrackPoint) (p1 : Point)
    (ls : List (Nat × TrackPoint)) (st : (Int × ℝ) × (Int × ℝ)) : Prop :=
  (st.1.1 ≠ -1 → ∃ k : Nat, st.1.1 = (k : Int) ∧ k < trackpoints.length ∧
    is_trackpoint_close_to_point (trackpoints.getD k default) p1 ∧ ∀ x ∈ ls, k ≤ x.1) ∧
  (st.2.1 ≠ -1 → st.1.1 ≠ -1 ∧ ∃ k : Nat, (k : Int) ≤ st.2.1 ∧ k < trackpoints.length ∧
    is_trackpoint_close_to_point (trackpoints.getD k default) p1)

theorem locStep_foldl_inv (segment : Segment) (trackpoints : List TrackPoint) :
    ∀ (ls : List (Nat × TrackPoint)) (st : (Int × ℝ) × (Int × ℝ)),
      (∀ x ∈ ls, x.1 < trackpoints.length) →
      List.Pairwise (fun x y : Nat × TrackPoint => x.1 ≤ y.1) ls →
      LocInv trackpoints segment.p1 ls st →
      LocInv trackpoints segment.p1 []
        (ls.foldl (locStep segment trackpoints) st) := by
  intro ls
  induction ls with
  | nil =>
    intro st _ _ hinv
    simpa [LocInv] using hinv
  | cons hd tl ih =>
    intro st hlen hpair hinv
    rw [List.foldl_cons]
    have hhdlen : hd.1 < trackpoints.length := hlen hd (List.mem_cons_self _ _)
    have htlrest : ∀ x ∈ tl, hd.1 ≤ x.1 := (List.pairwise_cons.mp hpair).1
    refine ih (locStep segment trackpoints st hd) (fun x hx => hlen x (List.mem_cons_of_mem _ hx))
      (List.pairwise_cons.mp hpair).2 ?_
    -- preservation of the invariant by one locator step
    unfold locStep
    set st1 := if is_trackpoint_close_to_point
        (trackpoints.getD hd.1 default) segment.p1 then
      (if st.1.1 = -1 ∨
          pointDistance (track_point_to_point hd.2) segment.p1 < st.1.2 then
        (((hd.1 : Int), pointDistance (track_point_to_point hd.2) segment.p1), st.2)
      else st)
    else st with hst1
    have hst1start : st1.1.1 ≠ -1 → ∃ k : Nat, st1.1.1 = (k : Int) ∧
        k < trackpoints.length ∧
        is_trackpoint_close_to_point (trackpoints.getD k default) segment.p1 ∧
        k ≤ hd.1 ∧ ∀ x ∈ tl, k ≤ x.1 := by
      intro hne
      rw [hst1]
      by_cases hc1 : is_trackpoint_close_to_point
          (trackpoints.getD hd.1 default) segment.p1
      · rw [if_pos hc1]
        by_cases hc2 : st.1.1 = -1 ∨
            pointDistance (track_point_to_point hd.2) segment.p1 < st.1.2
        · rw [if_pos hc2]
          exact ⟨hd.1, rfl, hhdlen, hc1, le_refl _, htlrest⟩
        · rw [if_neg hc2]
          have hstne : st.1.1 ≠ -1 := by
            intro h0
            rw [hst1, if_pos hc1, if_neg hc2] at hne
            exact hne h0
          obtain ⟨k, hk1, hk2, hk3, hk4⟩ := hinv.1 hstne
          exact ⟨k, hk1, hk2, hk3, hk4 hd (List.mem_cons_self _ _),
            fun x hx => hk4 x (List.mem_cons_of_mem _ hx)⟩
      · rw [if_neg hc1]
        have hstne : st.1.1 ≠ -1 := by
          intro h0
          rw [hst1, if_neg hc1] at hne
          exact hne h0
        obtain ⟨k, hk1, hk2, hk3, hk4⟩ := hinv.1 hstne
        exact ⟨k, hk1, hk2, hk3, hk4 hd (List.mem_cons_self _ _),
          fun x hx => hk4 x (List.mem_cons_of_mem _ hx)⟩
    have hst1snd : st1.2 = st.2 := by
      rw [hst1]
      by_cases hc1 : is_trackpoint_close_to_point
          (trackpoints.getD hd.1 default) segment.p1
      · rw [if_pos hc1]
        by_cases hc2 : st.1.1 = -1 ∨
            pointDistance (track_point_to_point hd.2) segment.p1 < st.1.2
        · rw [if_pos hc2]
        · rw [if_neg hc2]
      · rw [if_neg hc1]
    have hst1ne : st.1.1 ≠ -1 → st1.1.1 ≠ -1 := by
      intro hne
      rw [hst1]
      by_cases hc1 : is_trackpoint_close_to_point
          (trackpoints.getD hd.1 default) segment.p1
      · rw [if_pos hc1]
        by_cases hc2 : st.1.1 = -1 ∨
            pointDistance (track_point_to_point hd.2) segment.p1 < st.1.2
        · rw [if_pos hc2]
          simp
        · rw [if_neg hc2]
          exact hne
      · rw [if_neg hc1]
        exact hne
    by_cases hc3 : st1.1.1 ≠ -1 ∧ is_trackpoint_close_to_point
        (trackpoints.getD hd.1 default) segment.p2
    · rw [if_pos hc3]
      by_cases hc4 : tupleFalsy st1.2 = true ∨
          pointDistance (track_point_to_point hd.2) segment.p2 < st1.2.2
      · rw [if_pos hc4]
        constructor
        · intro hne
          obtain ⟨k, hk1, hk2, hk3, _, hk5⟩ := hst1start hne
          exact ⟨k, hk1, hk2, hk3, hk5⟩
        · intro _
          refine ⟨hc3.1, ?_⟩
          obtain ⟨k, hk1, hk2, hk3, hk4, _⟩ := hst1start hc3.1
          refine ⟨k, ?_, hk2, hk3⟩
          show (k : Int) ≤ ((hd.1 : Int))
          omega
      · rw [if_neg hc4]
        constructor
        · intro hne
          obtain ⟨k, hk1, hk2, hk3, _, hk5⟩ := hst1start hne
          exact ⟨k, hk1, hk2, hk3, hk5⟩
        · intro hne
          rw [hst1snd] at hne
          obtain ⟨hne1, k, hk1, hk2, hk3⟩ := hinv.2 hne
          rw [hst1snd]
          exact ⟨hst1ne hne1, k, hk1, hk2, hk3⟩
    · rw [if_neg hc3]
      constructor
      · intro hne
        obtain ⟨k, hk1, hk2, hk3, _, hk5⟩ := hst1start hne
        exact ⟨k, hk1, hk2, hk3, hk5⟩
      · intro hne
        rw [hst1snd] at hne
        obtain ⟨hne1, k, hk1, hk2, hk3⟩ := hinv.2 hne
        rw [hst1snd]
        exact ⟨hst1ne hne1, k, hk1, hk2, hk3⟩

/-- C4 (amended): whenever the locator's returned end index is valid
(`≠ -1`), the returned start index is valid as well, and the end index is at
or after the index of SOME track point that qualified as a start candidate
(is within tolerance of the segment's start coordinate).  The returned end
index may still be smaller than the finally returned start index, because the
best start index can move forward after the end candidate is fixed. -/
theorem locator_end_after_some_start_candidate (segment : Segment)
    (trackpoints : List TrackPoint) (i j : Int)
    (h : find_indexes_of_trackpoints_closest_to_segment_start_or_and segment trackpoints
      = some (i, j))
    (hj : j ≠ -1) :
    i ≠ -1 ∧ ∃ k : Nat, (k : Int) ≤ j ∧ k < trackpoints.length ∧
      is_trackpoint_close_to_point (trackpoints.getD k default) segment.p1 := by
  unfold find_indexes_of_trackpoints_closest_to_segment_start_or_and at h
  simp only [tupleFalsy, Bool.false_eq_true, if_false, Option.some.injEq, Prod.mk.injEq] at h
  have hinv := locStep_foldl_inv segment trackpoints trackpoints.enum
    ((-1, 99999999.9), (-1, 99999999.9))
    (fun x hx => by
      have := mem_enumFrom_bounds trackpoints 0 x hx
      omega)
    (enumFrom_pairwise_le trackpoints 0)
    (by
      constructor
      · intro hne; exact absurd rfl hne
      · intro hne; exact absurd rfl hne)
  obtain ⟨hne1, k, hk1, hk2, hk3⟩ := hinv.2 (by rw [h.2]; exact hj)
  rw [h.1] at hne1
  rw [h.2] at hk1
  exact ⟨hne1, k, hk1, hk2, hk3⟩

/-! ## A track on which the locator's end index precedes its start index -/

/-- Segment from `(0,0)` to `(1,0)` used for the locator ordering counterexample. -/
noncomputable def c4seg : Segment := ⟨(0, 0), (1, 0)⟩

/-- Track for the locator ordering counterexample: a point near the segment
start, then the exact segment end, then the exact segment start. -/
noncomputable def c4tps : List TrackPoint := [⟨0.0003, 0, 0⟩, ⟨1, 0, 10⟩, ⟨0, 0, 20⟩]

theorem c4_close00 : is_trackpoint_close_to_point (⟨0.0003, 0, 0⟩ : TrackPoint)
    ((0, 0) : Point) := by
  unfold is_trackpoint_close_to_point
  norm_num

theorem c4_far01 : ¬ is_trackpoint_close_to_point (⟨0.0003, 0, 0⟩ : TrackPoint)
    ((1, 0) : Point) := by
  unfold is_trackpoint_close_to_point
  norm_num

theorem c4_far10 : ¬ is_trackpoint_close_to_point (⟨1, 0, 10⟩ : TrackPoint)
    ((0, 0) : Point) := by
  unfold is_trackpoint_close_to_point
  norm_num

theorem c4_close11 : is_trackpoint_close_to_point (⟨1, 0, 10⟩ : TrackPoint)
    ((1, 0) : Point) := by
  unfold is_trackpoint_close_to_point
  norm_num

theorem c4_close20 : is_trackpoint_close_to_point (⟨0, 0, 20⟩ : TrackPoint)
    ((0, 0) : Point) := by
  unfold is_trackpoint_close_to_point
  norm_num

theorem c4_far21 : ¬ is_trackpoint_close_to_point (⟨0, 0, 20⟩ : TrackPoint)
    ((1, 0) : Point) := by
  unfold is_trackpoint_close_to_point
  norm_num

theorem c4_dE_lt : pointDistance (track_point_to_point (⟨1, 0, 10⟩ : TrackPoint))
    ((1, 0) : Point) < 99999999.9 := by
  unfold pointDistance track_point_to_point
  norm_num

theorem c4_d2_lt : pointDistance (track_point_to_point (⟨0, 0, 20⟩ : TrackPoint))
    ((0, 0) : Point) <
    pointDistance (track_point_to_point (⟨0.0003, 0, 0⟩ : TrackPoint)) ((0, 0) : Point) := by
  unfold pointDistance track_point_to_point
  norm_num

theorem c4_step1 : locStep c4seg c4tps ((-1, 99999999.9), (-1, 99999999.9))
    (0, ⟨0.0003, 0, 0⟩) =
    ((0, pointDistance (track_point_to_point (⟨0.0003, 0, 0⟩ : TrackPoint))
      ((0, 0) : Point)), (-1, 99999999.9)) := by
  simp only [locStep, c4seg, c4tps, List.getD_cons_zero]
  rw [if_pos c4_close00]
  simp [c4_far01]

theorem c4_step2 : locStep c4seg c4tps
    ((0, pointDistance (track_point_to_point (⟨0.0003, 0, 0⟩ : TrackPoint))
      ((0, 0) : Point)), (-1, 99999999.9)) (1, ⟨1, 0, 10⟩) =
    ((0, pointDistance (track_point_to_point (⟨0.0003, 0, 0⟩ : TrackPoint))
      ((0, 0) : Point)),
     (1, pointDistance (track_point_to_point (⟨1, 0, 10⟩ : TrackPoint))
      ((1, 0) : Point))) := by
  simp only [locStep, c4seg, c4tps, List.getD_cons_zero, List.getD_cons_succ]
  rw [if_neg c4_far10]
  have hand : ((0 : Int) ≠ -1) ∧ is_trackpoint_close_to_point
      (⟨1, 0, 10⟩ : TrackPoint) ((1, 0) : Point) := ⟨by norm_num, c4_close11⟩
  rw [if_pos hand]
  have hor : tupleFalsy ((-1 : Int), (99999999.9 : ℝ)) = true ∨
      pointDistance (track_point_to_point (⟨1, 0, 10⟩ : TrackPoint))
        ((1, 0) : Point) < (99999999.9 : ℝ) := Or.inr c4_dE_lt
  rw [if_pos hor]
  simp

theorem c4_step3 : locStep c4seg c4tps
    ((0, pointDistance (track_point_to_point (⟨0.0003, 0, 0⟩ : TrackPoint))
      ((0, 0) : Point)),
     (1, pointDistance (track_point_to_point (⟨1, 0, 10⟩ : TrackPoint))
      ((1, 0) : Point))) (2, ⟨0, 0, 20⟩) =
    ((2, pointDistance (track_point_to_point (⟨0, 0, 20⟩ : TrackPoint))
      ((0, 0) : Point)),
     (1, pointDistance (track_point_to_point (⟨1, 0, 10⟩ : TrackPoint))
      ((1, 0) : Point))) := by
  simp only [locStep, c4seg, c4tps, List.getD_cons_zero, List.getD_cons_succ]
  rw [if_pos c4_close20]
  have hor : ((0 : Int) = -1) ∨
      (pointDistance (track_point_to_point (⟨0, 0, 20⟩ : TrackPoint)) ((0, 0) : Point) <
        pointDistance (track_point_to_point (⟨0.0003, 0, 0⟩ : TrackPoint))
          ((0, 0) : Point)) := Or.inr c4_d2_lt
  rw [if_pos hor]
  simp [c4_far21]

/-- Full sweep over the counterexample track: the locator returns start
index `2` and end index `1`. -/
theorem locator_cex_eval :
    find_indexes_of_trackpoints_closest_to_segment_start_or_and c4seg c4tps
      = some (2, 1) := by
  unfold find_indexes_of_trackpoints_closest_to_segment_start_or_and
  have henum : c4tps.enum = [(0, (⟨0.0003, 0, 0⟩ : TrackPoint)),
      (1, (⟨1, 0, 10⟩ : TrackPoint)), (2, (⟨0, 0, 20⟩ : TrackPoint))] := by
    simp [c4tps, List.enum, List.enumFrom]
  dsimp only
  rw [henum, List.foldl_cons, c4_step1, List.foldl_cons, c4_step2,
    List.foldl_cons, c4_step3, List.foldl_nil]
  rfl

/-- C4 (counterexample): on `c4tps` the Candidate Locator returns end index
`1` strictly smaller than start index `2`: the end candidate was fixed while
the best start index was `0`, and the start index then moved past it. -/
theorem locator_end_before_start_cex :
    find_indexes_of_trackpoints_closest_to_segment_start_or_and c4seg c4tps
      = some (2, 1) ∧ (1 : Int) < 2 :=
  ⟨locator_cex_eval, by norm_num⟩

/-- Witness for `locator_end_after_some_start_candidate`, instantiated on the
counterexample track (start index 2, end index 1). -/
theorem locator_end_after_some_start_candidate_witness :
    (2 : Int) ≠ -1 ∧ ∃ k : Nat, (k : Int) ≤ 1 ∧ k < c4tps.length ∧
      is_trackpoint_close_to_point (c4tps.getD k default) c4seg.p1 :=
  locator_end_after_some_start_candidate c4seg c4tps 2 1 locator_cex_eval (by norm_num)

/-! ## Crossing Interpolator -/

/-- One iteration of the loop in `calc_segment_times`, over the MicroStep
`(ap1, ap2)`.  State: `(start, end, effort_times)`.  Returns `none` when the
two trackpoints have identical coordinates: sympy collapses the degenerate
`Segment(p, p)` to a `Point`, and the attribute access `step.p1` inside
`check_passed_point` then raises `AttributeError`. -/
noncomputable def calcStep (segment : Segment)
    (st : Option TrackPoint × Option TrackPoint × List ℝ) (ap1 ap2 : TrackPoint) :
    Option (Option TrackPoint × Option TrackPoint × List ℝ) :=
  if track_point_to_point ap1 = track_point_to_point ap2 then none
  else
    let step := (track_point_to_point ap1, track_point_to_point ap2)
    let start1 := if check_passed_point step segment.p1 then
        some (project_and_interpolate step ap1.time ap2.time segment.p1)
      else st.1
    let end1 := match start1 with
      | some _ =>
        if check_passed_point step segment.p2 then
          some (project_and_interpolate step ap1.time ap2.time segment.p2)
        else st.2.1
      | none => st.2.1
    match start1, end1 with
    | some s, some e => some (none, none, st.2.2 ++ [e.time - s.time])
    | _, _ => some (start1, end1, st.2.2)

/-- The loop of `calc_segment_times` over the scanned index pairs,
threading the `(start, end, effort_times)` state; `none` aborts (a raised
exception). -/
noncomputable def calcLoop (segment : Segment) (activity : List TrackPoint) :
    Option TrackPoint × Option TrackPoint × List ℝ → List (Nat × Nat) →
      Option (Option TrackPoint × Option TrackPoint × List ℝ)
  | st, [] => some st
  | st, ij :: rest =>
    match calcStep segment st (activity.getD ij.1 default) (activity.getD ij.2 default) with
    | none => none
    | some st2 => calcLoop segment activity st2 rest

/-- `calc_segment_times(segment, activity)`: iterate over the index pairs of
`range(len(activity[:-2]))`, starting from empty pending events and an empty
result list, and return `effort_times`. -/
noncomputable def calc_segment_times (segment : Segment) (activity : List TrackPoint) :
    Option (List ℝ) :=
  (calcLoop segment activity (none, none, []) (microstepIndexPairs activity.length)).map
    (fun st => st.2.2)

theorem calcStep_isSome (segment : Segment)
    (st : Option TrackPoint × Option TrackPoint × List ℝ) (ap1 ap2 : TrackPoint)
    (hne : track_point_to_point ap1 ≠ track_point_to_point ap2) :
    (calcStep segment st ap1 ap2).isSome := by
  unfold calcStep
  rw [if_neg hne]
  dsimp only
  split
  · rfl
  · rfl

theorem calcLoop_isSome (segment : Segment) (activity : List TrackPoint) :
    ∀ (l : List (Nat × Nat)) (st : Option TrackPoint × Option TrackPoint × List ℝ),
      (∀ ij ∈ l, track_point_to_point (activity.getD ij.1 default) ≠
        track_point_to_point (activity.getD ij.2 default)) →
      (calcLoop segment activity st l).isSome := by
  intro l
  induction l with
  | nil =>
    intro st _
    rw [calcLoop]
    rfl
  | cons hd tl ih =>
    intro st h
    rw [calcLoop]
    have hs := calcStep_isSome segment st (activity.getD hd.1 default)
      (activity.getD hd.2 default) (h hd (List.mem_cons_self _ _))
    obtain ⟨st2, hst2⟩ := Option.isSome_iff_exists.mp hs
    rw [hst2]
    exact ih st2 (fun ij hij => h ij (List.mem_cons_of_mem _ hij))

/-- C8 (amended): the Crossing Interpolator is failure-free on every windowed
input whose scanned MicroSteps are non-degenerate (no two consecutive scanned
points with identical coordinates); in that case it returns a result list
(possibly empty) rather than an exception.  On a window that contains two
consecutive points with equal coordinates it raises instead. -/
theorem interpolator_total_of_nondegenerate (segment : Segment)
    (activity : List TrackPoint)
    (h : ∀ ij ∈ microstepIndexPairs activity.length,
      track_point_to_point (activity.getD ij.1 default) ≠
        track_point_to_point (activity.getD ij.2 default)) :
    (calc_segment_times segment activity).isSome := by
  unfold calc_segment_times
  have hs := calcLoop_isSome segment activity (microstepIndexPairs activity.length)
    (none, none, []) h
  obtain ⟨st, hst⟩ := Option.isSome_iff_exists.mp hs
  rw [hst]
  rfl

/-- Witness for `interpolator_total_of_nondegenerate`: a two-point window has
no scanned MicroSteps, so the hypothesis holds vacuously and the interpolator
returns a (empty) result list. -/
theorem interpolator_total_witness :
    (calc_segment_times ⟨(0, 0), (1, 0)⟩ [⟨0, 0, 0⟩, ⟨1, 0, 5⟩]).isSome :=
  interpolator_total_of_nondegenerate ⟨(0, 0), (1, 0)⟩ [⟨0, 0, 0⟩, ⟨1, 0, 5⟩]
    (by
      intro ij hij
      simp [microstepIndexPairs] at hij)

/-- C8 (counterexample): a time-ordered window whose first two points carry
identical coordinates makes `calc_segment_times` raise (modelled as `none`):
sympy collapses the degenerate MicroStep to a `Point` and `step.p1` fails.
The claim says the interpolator never raises on any windowed input. -/
theorem interpolator_duplicate_point_raises_cex :
    calc_segment_times ⟨(0, 0), (1, 0)⟩ [⟨5, 5, 0⟩, ⟨5, 5, 1⟩, ⟨6, 5, 2⟩] = none := by
  unfold calc_segment_times
  have hlen : (List.length ([⟨5, 5, 0⟩, ⟨5, 5, 1⟩, ⟨6, 5, 2⟩] : List TrackPoint)) = 3 := rfl
  rw [hlen]
  have hpairs : microstepIndexPairs 3 = [(0, 1)] := by decide
  rw [hpairs, calcLoop]
  have hdup : track_point_to_point (⟨5, 5, 0⟩ : TrackPoint) =
      track_point_to_point (⟨5, 5, 1⟩ : TrackPoint) := rfl
  have hstep : calcStep ⟨(0, 0), (1, 0)⟩ (none, none, [])
      (([⟨5, 5, 0⟩, ⟨5, 5, 1⟩, ⟨6, 5, 2⟩] : List TrackPoint).getD 0 default)
      (([⟨5, 5, 0⟩, ⟨5, 5, 1⟩, ⟨6, 5, 2⟩] : List TrackPoint).getD 1 default) = none := by
    simp only [List.getD_cons_zero, List.getD_cons_succ]
    unfold calcStep
    rw [if_pos hdup]
  rw [hstep]
  rfl

/-! ## Full pipeline -/

/-- The core of `segment_time(activity_tcx_path, segment)` with the I/O
(TCX parsing, logging) stripped: locate candidate indices, build the two
windows, concatenate them, and interpolate. -/
noncomputable def segment_time (segment : Segment) (trackpoints : List TrackPoint) :
    Option (List ℝ) :=
  match find_indexes_of_trackpoints_closest_to_segment_start_or_and segment trackpoints with
  | none => none
  | some (start_idx, end_ids) =>
    calc_segment_times segment
      (with_surrounding_trackpoints trackpoints start_idx ++
        with_surrounding_trackpoints trackpoints end_ids)

/-! ## Scenario A: two points exactly on the segment endpoints, 600 s apart -/

/-- Scenario A's track point at the exact segment start, at `t = 0`. -/
noncomputable def tpA0 : TrackPoint := ⟨7.436902, 50.884516, 0⟩

/-- Scenario A's track point at the exact segment end, at `t = 600`. -/
noncomputable def tpA1 : TrackPoint := ⟨7.441928, 50.883243, 600⟩

/-- The Marienfeld Climb segment of Scenario A. -/
noncomputable def scenASeg : Segment := ⟨(7.436902, 50.884516), (7.441928, 50.883243)⟩

/-- Scenario A's two-point track. -/
noncomputable def scenATrack : List TrackPoint := [tpA0, tpA1]

theorem scenA_close00 : is_trackpoint_close_to_point tpA0 ((7.436902, 50.884516) : Point) := by
  unfold is_trackpoint_close_to_point tpA0
  norm_num

theorem scenA_far01 : ¬ is_trackpoint_close_to_point tpA0 ((7.441928, 50.883243) : Point) := by
  unfold is_trackpoint_close_to_point tpA0
  norm_num

theorem scenA_far10 : ¬ is_trackpoint_close_to_point tpA1 ((7.436902, 50.884516) : Point) := by
  unfold is_trackpoint_close_to_point tpA1
  norm_num

theorem scenA_close11 : is_trackpoint_close_to_point tpA1 ((7.441928, 50.883243) : Point) := by
  unfold is_trackpoint_close_to_point tpA1
  norm_num

theorem scenA_dlt : pointDistance (track_point_to_point tpA1)
    ((7.441928, 50.883243) : Point) < 99999999.9 := by
  unfold pointDistance track_point_to_point tpA1
  norm_num

theorem scenA_locStep1 : locStep scenASeg scenATrack ((-1, 99999999.9), (-1, 99999999.9))
    (0, tpA0) =
    ((0, pointDistance (track_point_to_point tpA0) ((7.436902, 50.884516) : Point)),
     (-1, 99999999.9)) := by
  simp only [locStep, scenASeg, scenATrack, List.getD_cons_zero]
  rw [if_pos scenA_close00]
  simp [scenA_far01]

theorem scenA_locStep2 : locStep scenASeg scenATrack
    ((0, pointDistance (track_point_to_point tpA0) ((7.436902, 50.884516) : Point)),
     (-1, 99999999.9)) (1, tpA1) =
    ((0, pointDistance (track_point_to_point tpA0) ((7.436902, 50.884516) : Point)),
     (1, pointDistance (track_point_to_point tpA1) ((7.441928, 50.883243) : Point))) := by
  simp only [locStep, scenASeg, scenATrack, List.getD_cons_zero, List.getD_cons_succ]
  rw [if_neg scenA_far10]
  have hand : ((0 : Int) ≠ -1) ∧ is_trackpoint_close_to_point tpA1
      ((7.441928, 50.883243) : Point) := ⟨by norm_num, scenA_close11⟩
  rw [if_pos hand]
  have hor : tupleFalsy ((-1 : Int), (99999999.9 : ℝ)) = true ∨
      pointDistance (track_point_to_point tpA1) ((7.441928, 50.883243) : Point) <
        (99999999.9 : ℝ) := Or.inr scenA_dlt
  rw [if_pos hor]
  simp

/-- On Scenario A's track the locator returns start index `0`, end index `1`. -/
theorem scenA_find :
    find_indexes_of_trackpoints_closest_to_segment_start_or_and scenASeg scenATrack
      = some (0, 1) := by
  unfold find_indexes_of_trackpoints_closest_to_segment_start_or_and
  have henum : scenATrack.enum = [(0, tpA0), (1, tpA1)] := by
    simp [scenATrack, List.enum, List.enumFrom]
  dsimp only
  rw [henum, List.foldl_cons, scenA_locStep1, List.foldl_cons, scenA_locStep2,
    List.foldl_nil]
  rfl

/-- The window of radius 2 around index 0 of a two-point track is the whole track. -/
theorem with_surrounding_pair_zero (a b : TrackPoint) :
    with_surrounding_trackpoints [a, b] 0 = [a, b] := by
  unfold with_surrounding_trackpoints
  have hl : ((([a, b] : List TrackPoint).length : Int)) = 2 := rfl
  simp only [hl]
  have h : (([0 - 2, 0 - 1, 0, 0 + 1, 0 + 2] : List Int).filter
      (fun idx => decide (0 ≤ idx ∧ idx < (2 : Int)))) = [0, 1] := by decide
  rw [h]
  have h2 : (([0, 1] : List Int).dedup) = [0, 1] := by decide
  have h3 : List.insertionSort (fun x1 x2 => x1 ≤ x2) ([0, 1] : List Int) = [0, 1] := by
    decide
  rw [h2, h3]
  rfl

/-- The window of radius 2 around index 1 of a two-point track is the whole track. -/
theorem with_surrounding_pair_one (a b : TrackPoint) :
    with_surrounding_trackpoints [a, b] 1 = [a, b] := by
  unfold with_surrounding_trackpoints
  have hl : ((([a, b] : List TrackPoint).length : Int)) = 2 := rfl
  simp only [hl]
  have h : (([1 - 2, 1 - 1, 1, 1 + 1, 1 + 2] : List Int).filter
      (fun idx => decide (0 ≤ idx ∧ idx < (2 : Int)))) = [0, 1] := by decide
  rw [h]
  have h2 : (([0, 1] : List Int).dedup) = [0, 1] := by decide
  have h3 : List.insertionSort (fun x1 x2 => x1 ≤ x2) ([0, 1] : List Int) = [0, 1] := by
    decide
  rw [h2, h3]
  rfl

theorem scenA_ne : track_point_to_point tpA0 ≠ track_point_to_point tpA1 := by
  unfold track_point_to_point tpA0 tpA1
  simp only [ne_eq, Prod.mk.injEq, not_and]
  intro h
  norm_num at h

theorem scenA_calcStep1 : calcStep scenASeg (none, none, []) tpA0 tpA1
    = some (none, none, []) := by
  unfold calcStep
  rw [if_neg scenA_ne]
  have hp1 : scenASeg.p1 = track_point_to_point tpA0 := rfl
  rw [hp1]
  dsimp only
  rw [if_neg (not_check_passed_point_fst (track_point_to_point tpA0)
    (track_point_to_point tpA1))]

theorem scenA_calcStep2 : calcStep scenASeg (none, none, []) tpA1 tpA0
    = some (none, none, []) := by
  unfold calcStep
  rw [if_neg (Ne.symm scenA_ne)]
  have hp1 : scenASeg.p1 = track_point_to_point tpA0 := rfl
  rw [hp1]
  dsimp only
  rw [if_neg (not_check_passed_point_snd (track_point_to_point tpA1)
    (track_point_to_point tpA0))]

/-- On the concatenated Scenario A windows, the interpolator finds no
crossing at all: every scanned MicroStep has the target exactly at one of
its endpoints, and the strict inequality in `check_passed_point` rejects
exact endpoint matches. -/
theorem scenA_calc : calc_segment_times scenASeg [tpA0, tpA1, tpA0, tpA1] = some [] := by
  unfold calc_segment_times
  have hlen : (List.length ([tpA0, tpA1, tpA0, tpA1] : List TrackPoint)) = 4 := rfl
  rw [hlen]
  have hpairs : microstepIndexPairs 4 = [(0, 1), (1, 2)] := by decide
  rw [hpairs, calcLoop]
  have hg1 : (([tpA0, tpA1, tpA0, tpA1] : List TrackPoint).getD 0 default) = tpA0 := rfl
  have hg2 : (([tpA0, tpA1, tpA0, tpA1] : List TrackPoint).getD 1 default) = tpA1 := rfl
  have hg3 : (([tpA0, tpA1, tpA0, tpA1] : List TrackPoint).getD 2 default) = tpA0 := rfl
  rw [hg1, hg2, scenA_calcStep1]
  dsimp only
  rw [calcLoop, hg2, hg3, scenA_calcStep2]
  rfl

/-- Helper: the full pipeline on Scenario A's input returns an empty result
list. -/
theorem scenA_pipeline_eval : segment_time scenASeg scenATrack = some [] := by
  unfold segment_time
  rw [scenA_find]
  have htr : scenATrack = [tpA0, tpA1] := rfl
  dsimp only
  rw [htr, with_surrounding_pair_zero, with_surrounding_pair_one]
  exact scenA_calc

/-- C1 (counterexample): the full pipeline on Scenario A's input — a segment
with start `(7.436902, 50.884516)` and end `(7.441928, 50.883243)` and a
track with two points exactly at these coordinates, 600 seconds apart — does
NOT produce the single EffortResult `[600.0]`. -/
theorem scenario_a_not_single_result_cex :
    segment_time scenASeg scenATrack ≠ some [600] := by
  rw [scenA_pipeline_eval]
  simp

/-- C1 (amended): on Scenario A's input the full pipeline runs to completion
and produces an EMPTY result sequence: both track points sit exactly on the
segment endpoints, and `check_passed_point`'s strict inequality rejects a
MicroStep whose endpoint coincides with the target, so no CrossingEvent is
ever synthesized. -/
theorem scenario_a_pipeline_empty : segment_time scenASeg scenATrack = some [] :=
  scenA_pipeline_eval

/-! ## Claims C10 and C7 -/

/-- C10: the Proximity Classifier returns true iff the trackpoint's latitude
lies within `0.0005` of the target's latitude (inclusive at both bounds) and
its longitude lies within `0.0005` of the target's longitude (inclusive at
both bounds); it is a total predicate with no other outcome. -/
theorem proximity_classifier_iff (trackpoint : TrackPoint) (point : Point) :
    is_trackpoint_close_to_point trackpoint point ↔
      |trackpoint.latitude - point.2| ≤ 0.0005 ∧ |trackpoint.longitude - point.1| ≤ 0.0005 := by
  unfold is_trackpoint_close_to_point
  rw [abs_sub_le_iff, abs_sub_le_iff]
  constructor
  · rintro ⟨⟨h1, h2⟩, ⟨h3, h4⟩⟩
    exact ⟨⟨by linarith, by linarith⟩, ⟨by linarith, by linarith⟩⟩
  · rintro ⟨⟨h1, h2⟩, ⟨h3, h4⟩⟩
    exact ⟨⟨by linarith, by linarith⟩, ⟨by linarith, by linarith⟩⟩

/-- C7 (counterexample): for a windowed list of three points the scanned index
pairs are just `[(0, 1)]`, so the final point (index `2`) does not participate
in the scan at all — in particular it never occurs as the second element
`ap2` of a scanned MicroStep, contrary to the claim. -/
theorem microsteps_last_point_unused_cex :
    (microstepIndexPairs 3).all (fun ij => ij.1 != 2 && ij.2 != 2) = true := by
  decide

/-- C7 (amended): the iteration stops two positions before the end of the
windowed list, and consequently the final point (index `n - 1`) never
participates in any scanned MicroStep — neither as `ap1` nor as `ap2`; the
second-to-last point participates only as `ap2`. -/
theorem microsteps_last_point_unused (n : Nat) (ij : Nat × Nat)
    (h : ij ∈ microstepIndexPairs n) :
    ij.1 ≠ n - 1 ∧ ij.2 ≠ n - 1 ∧ ij.2 = ij.1 + 1 ∧ ij.1 < n - 2 := by
  unfold microstepIndexPairs at h
  simp only [List.mem_map, List.mem_range] at h
  obtain ⟨i, hi, rfl⟩ := h
  refine ⟨by omega, by omega, rfl, hi⟩

/-- Witness for `microsteps_last_point_unused` at `n = 4`, `ij = (0, 1)`. -/
theorem microsteps_last_point_unused_witness :
    (0, 1) ∈ microstepIndexPairs 4 ∧
      ((0, 1) : Nat × Nat).1 ≠ 3 ∧ ((0, 1) : Nat × Nat).2 ≠ 3 ∧
      ((0, 1) : Nat × Nat).2 = ((0, 1) : Nat × Nat).1 + 1 ∧ ((0, 1) : Nat × Nat).1 < 2 :=
  ⟨by decide, microsteps_last_point_unused 4 (0, 1) (by decide)⟩

end Strava
